import Mathlib

/-!
Verification of the seokit resource-management core: the Puppeteer page pool
(PagePool in the page-pool module), the browser lifecycle manager
(BrowserManager in browser-manager.ts) and the render executor
(htmlToPng / waitForPageReady in html-to-png.ts).

The embedding is shallow: each TypeScript class becomes a Lean structure and
each method a pure function on that structure.  `Date.now()` is passed in as
a `now : Nat` parameter.  Puppeteer `Page` handles are modelled as natural
numbers: puppeteer returns a fresh object from every `browser.newPage()`
call, which we model by numbering pages with the pool counter, so object
identity (`===`) becomes equality of numbers.  Promise resolution of a
blocked `acquire` is modelled by returning the served `PoolRequest` as an
explicit effect.  `setTimeout` timers are modelled by a `timerActive` flag on
each waiting request together with an explicit timer-firing step.
-/

namespace Seokit

/-! ## PagePool data model (page-pool module) -/

structure PagePoolConfig where
  size : Nat
  timeout : Nat
  maxWaitTime : Nat
deriving Repr, DecidableEq

/-- `PageInfo` record.  The source keys the pages map by the string
`page-n` produced by `generatePageId`; `n ↦ "page-" ++ toString n` is a
bijection, so we store the numeric `n` as `id`.  `page` is the Puppeteer
page handle (see module comment). -/
structure PageInfo where
  id : Nat
  page : Nat
  inUse : Bool
  lastUsed : Nat
  requestCount : Nat
deriving Repr, DecidableEq

/-- `PoolRequest`: one blocked acquire call.  `reqId` models the object
identity of the request (each `queueRequest` allocates a fresh object);
`timerActive` models whether its `setTimeout` timer is still pending. -/
structure PoolRequest where
  reqId : Nat
  timestamp : Nat
  timerActive : Bool
deriving Repr, DecidableEq

/-- The `Queue` class of the source is an array with `push` (enqueue at the
back) and `shift` (dequeue at the front); we use a `List` with `l ++ [x]`
and pattern matching on the head. -/
structure PagePool where
  pages : List PageInfo
  availablePages : List Nat
  waitingRequests : List PoolRequest
  config : PagePoolConfig
  browser : Option Nat
  pageIdCounter : Nat
  isInitialized : Bool
  reqIdCounter : Nat
deriving Repr, DecidableEq

structure PagePoolStats where
  total : Nat
  available : Nat
  inUse : Nat
  waitingRequests : Nat
deriving Repr, DecidableEq

/-- The `PagePool` constructor (defaults already applied to the config). -/
def mkPagePool (cfg : PagePoolConfig) : PagePool :=
  { pages := []
    availablePages := []
    waitingRequests := []
    config := cfg
    browser := none
    pageIdCounter := 0
    isInitialized := false
    reqIdCounter := 0 }

/-- `getStats()`. -/
def PagePool.getStats (s : PagePool) : PagePoolStats :=
  { total := s.pages.length
    available := s.availablePages.length
    inUse := (s.pages.filter (fun p => p.inUse)).length
    waitingRequests := s.waitingRequests.length }

/-- The pages created by the `initialize` loop: for `i` in `0..count`,
`generatePageId` pre-increments the counter and `browser.newPage()` yields a
fresh handle (modelled by the same counter value).  Each record starts
`inUse := false`, `requestCount := 0`, `lastUsed := Date.now()`. -/
def freshPages (now : Nat) : Nat → Nat → List PageInfo
  | _, 0 => []
  | c, Nat.succ n =>
    { id := c + 1, page := c + 1, inUse := false, lastUsed := now, requestCount := 0 }
      :: freshPages now (c + 1) n

/-- `initialize(browser)`.  A no-op (with a warning) when already
initialized; otherwise opens `config.size` pages up front, recording each as
available.  `browser.newPage()` is assumed to succeed (the catch branch
rethrows and is not modelled). -/
def PagePool.initPool (s : PagePool) (browser : Nat) (now : Nat) : PagePool :=
  if s.isInitialized then s
  else
    let created := freshPages now s.pageIdCounter s.config.size
    { s with
        browser := some browser
        pages := s.pages ++ created
        availablePages := s.availablePages ++ created.map (fun p => p.id)
        pageIdCounter := s.pageIdCounter + s.config.size
        isInitialized := true }

inductive AcquireResult where
  /-- the `Page pool is not initialized` error thrown up front -/
  | notInitialized
  /-- an available page was handed out synchronously -/
  | immediate (page : Nat)
  /-- `queueRequest` enqueued a `PoolRequest` with this identity -/
  | queued (reqId : Nat)
deriving Repr, DecidableEq

/-- Replace the first element satisfying `q` by its image under `f`;
this is how mutating the object found by a first-match scan over a JS
`Map` acts on the insertion-ordered list of records. -/
def updateFirst {α : Type} (q : α → Bool) (f : α → α) : List α → List α
  | [] => []
  | x :: xs => if q x then f x :: xs else x :: updateFirst q f xs

/-- `queueRequest(acquireStartTime)`: allocate a fresh `PoolRequest`, arm
its `maxWaitTime` timer and enqueue it. -/
def PagePool.queueRequest (s : PagePool) (now : Nat) : PagePool × AcquireResult :=
  let rid := s.reqIdCounter + 1
  let r : PoolRequest := { reqId := rid, timestamp := now, timerActive := true }
  ({ s with waitingRequests := s.waitingRequests ++ [r], reqIdCounter := rid },
   AcquireResult.queued rid)

/-- The mutation `acquire` performs on the page record it hands out:
`inUse = true; lastUsed = Date.now(); requestCount++`. -/
def markAcquired (now : Nat) (p : PageInfo) : PageInfo :=
  { p with inUse := true, lastUsed := now, requestCount := p.requestCount + 1 }

/-- `acquire()`: fail when not initialized; otherwise dequeue an available
page id, look its record up and hand the page out, or queue the request.
(The source also falls through to `queueRequest` when the dequeued id has no
record; that branch is unreachable in well-formed pools but kept.) -/
def PagePool.acquire (s : PagePool) (now : Nat) : PagePool × AcquireResult :=
  if !s.isInitialized || s.browser.isNone then (s, AcquireResult.notInitialized)
  else
    match s.availablePages with
    | [] => s.queueRequest now
    | pageId :: rest =>
      match s.pages.find? (fun p => p.id == pageId) with
      | some info =>
        ({ s with
            pages := updateFirst (fun p => p.id == pageId) (markAcquired now) s.pages
            availablePages := rest },
         AcquireResult.immediate info.page)
      | none => ({ s with availablePages := rest }).queueRequest now

inductive ReleaseEffect where
  /-- unknown page: a warning is logged and nothing happens -/
  | unknownPage
  /-- the page was handed directly to this waiting request (returned with
  its timer cleared) by calling its `resolve` with the page -/
  | handedToWaiter (r : PoolRequest) (page : Nat)
  /-- no waiter: the page id went back on the available queue -/
  | returnedToAvailable (id : Nat)
deriving Repr, DecidableEq

/-- `release(page)`: find the owning record by handle identity; unknown
pages are a warned no-op.  Otherwise reset the page (the reset only touches
the browser page and swallows its own errors, so it never throws), mark the
record free, then either hand the page to the oldest waiting request
(clearing its timer, re-marking the record in use and bumping its request
count) or push the id back on the available queue. -/
def PagePool.release (s : PagePool) (page : Nat) (now : Nat) : PagePool × ReleaseEffect :=
  match s.pages.find? (fun p => p.page == page) with
  | none => (s, ReleaseEffect.unknownPage)
  | some info =>
    let pages1 := updateFirst (fun p => p.page == page)
      (fun p => { p with inUse := false, lastUsed := now }) s.pages
    match s.waitingRequests with
    | [] =>
      ({ s with pages := pages1, availablePages := s.availablePages ++ [info.id] },
       ReleaseEffect.returnedToAvailable info.id)
    | w :: ws =>
      let pages2 := updateFirst (fun p => p.page == page)
        (fun p => { p with inUse := true, requestCount := p.requestCount + 1 }) pages1
      ({ s with pages := pages2, waitingRequests := ws },
       ReleaseEffect.handedToWaiter { w with timerActive := false } page)

/-- A plain JS `Error` as observed by a caller: its `name` and `message`. -/
structure JsError where
  name : String
  message : String
deriving Repr, DecidableEq

/-- `removeRequestFromQueue(targetRequest)`: drain the queue into a fresh
one keeping every request other than the target, preserving order; this is
`List.filter` on the request identity. -/
def PagePool.removeRequestFromQueue (s : PagePool) (rid : Nat) : PagePool :=
  { s with waitingRequests := s.waitingRequests.filter (fun r => r.reqId != rid) }

/-- The error built by the `queueRequest` timeout callback.  Its message
interpolates `config.maxWaitTime` and `pages.size`; nothing else. -/
def PagePool.acquisitionTimeoutError (s : PagePool) : JsError :=
  { name := "PageAcquisitionTimeoutError"
    message := "Page acquisition timeout after " ++ toString s.config.maxWaitTime
      ++ "ms. Pool exhausted with " ++ toString s.pages.length ++ " pages in use." }

/-- The timeout timer of a queued request fires: the request is removed from
the queue and its promise is rejected with the timeout error. -/
def PagePool.fireTimeout (s : PagePool) (rid : Nat) : PagePool × JsError :=
  let s1 := s.removeRequestFromQueue rid
  (s1, s1.acquisitionTimeoutError)

/-- The rejection handed to every waiter by `drain()`. -/
def drainError : JsError := { name := "Error", message := "Page pool is being drained" }

/-- What `drain()` did: every waiting request rejected (with its timer
cleared first) and every page closed.  Close errors are caught and logged
inside `drain`, so closing is unconditional and never throws. -/
structure DrainResult where
  rejected : List (PoolRequest × JsError)
  closedPages : List Nat
deriving Repr, DecidableEq

/-- `drain()`: reject all waiters, close all pages, clear every collection
and mark the pool uninitialized. -/
def PagePool.drain (s : PagePool) : PagePool × DrainResult :=
  ({ s with
      pages := []
      availablePages := []
      waitingRequests := []
      isInitialized := false },
   { rejected := s.waitingRequests.map (fun r => ({ r with timerActive := false }, drainError))
     closedPages := s.pages.map (fun p => p.page) })

/-! ## Pool step relation

The pool is driven by callers through `initialize`, `acquire`, `release` and
`drain`, and by its own timers through the timeout firing.  A reachable
state is the fold of any such operation sequence. -/

inductive PoolOp where
  | opInit (browser now : Nat)
  | opAcquire (now : Nat)
  | opRelease (page now : Nat)
  | opFireTimeout (reqId : Nat)
  | opDrain
deriving Repr, DecidableEq

def PagePool.step (s : PagePool) : PoolOp → PagePool
  | PoolOp.opInit b now => s.initPool b now
  | PoolOp.opAcquire now => (s.acquire now).1
  | PoolOp.opRelease p now => (s.release p now).1
  | PoolOp.opFireTimeout rid => (s.fireTimeout rid).1
  | PoolOp.opDrain => s.drain.1

def PagePool.run (s : PagePool) (ops : List PoolOp) : PagePool :=
  ops.foldl PagePool.step s

/-- A release respects ownership when the released handle is either unknown
to the pool or owned by a record currently marked in use (clients only
release what they acquired, and only once). -/
abbrev releaseLegal (s : PagePool) (page : Nat) : Prop :=
  (∀ p ∈ s.pages, p.page ≠ page) ∨ (∃ p ∈ s.pages, p.page = page ∧ p.inUse = true)

abbrev opLegal (s : PagePool) : PoolOp → Prop
  | PoolOp.opRelease p _ => releaseLegal s p
  | _ => True

/-- Operation sequences in which every release respects ownership. -/
inductive Legal : PagePool → List PoolOp → Prop where
  | nil (s : PagePool) : Legal s []
  | cons {s : PagePool} {op : PoolOp} {ops : List PoolOp} :
      opLegal s op → Legal (s.step op) ops → Legal s (op :: ops)

/-- `acquire` iterated `n` times, collecting the results in call order. -/
def acquireTimes (s : PagePool) (now : Nat) : Nat → PagePool × List AcquireResult
  | 0 => (s, [])
  | Nat.succ n =>
    let sr := s.acquire now
    let rest := acquireTimes sr.1 now n
    (rest.1, sr.2 :: rest.2)

/-- Structural well-formedness of a pool state: page ids are unique keys,
handles coincide with ids (see module comment), ids never exceed the
counter, every available id references a record that is not in use, the
available queue has no duplicates, and the available/in-use/total counts
balance. -/
structure PoolInv (s : PagePool) : Prop where
  keysNodup : (s.pages.map (fun p => p.id)).Nodup
  pageEqId : ∀ p ∈ s.pages, p.page = p.id
  idsBounded : ∀ p ∈ s.pages, p.id ≤ s.pageIdCounter
  availMem : ∀ i ∈ s.availablePages, ∃ p ∈ s.pages, p.id = i ∧ p.inUse = false
  availNodup : s.availablePages.Nodup
  countEq : s.availablePages.length + (s.pages.filter (fun p => p.inUse)).length
      = s.pages.length

/-! ## BrowserManager (browser-manager.ts) -/

inductive BrowserStatus where
  | stopped
  | starting
  | running (browser : Nat) (startTime : Nat)
  | crashed (errMsg : String) (crashTime : Nat)
  | restarting
deriving Repr, DecidableEq

structure BrowserManager where
  state : BrowserStatus
  restartAttempts : Nat
  maxRestartAttempts : Nat
  restartBackoffMs : Nat
deriving Repr, DecidableEq

/-- `start()`.  `launch` is the outcome of `puppeteer.launch`: a fresh
browser handle on success, `none` when launching throws.  Warned no-op when
already running or starting; on success the state becomes running and the
restart-attempt counter resets to zero; on failure the state becomes
crashed and the error is rethrown.  (The transient `starting` state and the
version read, crash observer and memory-monitor installation have no effect
on the fields modelled here.) -/
def BrowserManager.start (m : BrowserManager) (launch : Option Nat) (now : Nat) :
    BrowserManager :=
  match m.state with
  | BrowserStatus.running _ _ => m
  | BrowserStatus.starting => m
  | _ =>
    match launch with
    | some b => { m with state := BrowserStatus.running b now, restartAttempts := 0 }
    | none => { m with state := BrowserStatus.crashed ("launch failed") now }

/-- `getBrowser()`. -/
def BrowserManager.getBrowser (m : BrowserManager) : Option Nat :=
  match m.state with
  | BrowserStatus.running b _ => some b
  | _ => none

/-- `isRunning()`. -/
def BrowserManager.isRunning (m : BrowserManager) : Bool :=
  match m.state with
  | BrowserStatus.running _ _ => true
  | _ => false

/-- One round of the auto-restart loop as recorded for observation:
the attempt number after the pre-increment, the backoff delay waited, the
state held during the wait, and whether the `start` call succeeded. -/
structure RestartTry where
  attempt : Nat
  backoffMs : Nat
  duringWait : BrowserStatus
  succeeded : Bool
deriving Repr, DecidableEq

/-- Body of `attemptAutoRestart()`.  `launches` gives the outcome of the
`puppeteer.launch` performed by the `start` call of each attempt number.
The recursion is driven by a fuel argument that the wrapper sets to
`maxRestartAttempts - restartAttempts`, which is exactly the number of
rounds the in-body attempt cap admits, so the fuel never cuts a run short;
it only makes the recursion structural. -/
def autoRestartGo (launches : Nat → Option Nat) (now : Nat) :
    Nat → BrowserManager → BrowserManager × List RestartTry
  | 0, m => (m, [])
  | Nat.succ fuel, m =>
    if m.maxRestartAttempts ≤ m.restartAttempts then (m, [])
    else
      let attempts1 := m.restartAttempts + 1
      let backoff := m.restartBackoffMs * 2 ^ (attempts1 - 1)
      let m1 : BrowserManager :=
        { m with restartAttempts := attempts1, state := BrowserStatus.restarting }
      let m2 := m1.start (launches attempts1) now
      let entry : RestartTry :=
        { attempt := attempts1, backoffMs := backoff,
          duringWait := BrowserStatus.restarting, succeeded := m2.isRunning }
      if m2.isRunning then (m2, [entry])
      else if attempts1 < m.maxRestartAttempts then
        let rest := autoRestartGo launches now fuel m2
        (rest.1, entry :: rest.2)
      else (m2, [entry])

/-- `attemptAutoRestart()`: give up when the attempt cap is reached,
otherwise increment the counter, wait `restartBackoffMs * 2 ^ (attempt - 1)`
in the restarting state, try `start()`, and on failure recurse while below
the cap. -/
def BrowserManager.attemptAutoRestart (m : BrowserManager) (launches : Nat → Option Nat)
    (now : Nat) : BrowserManager × List RestartTry :=
  autoRestartGo launches now (m.maxRestartAttempts - m.restartAttempts) m

/-! ## Render executor (html-to-png.ts) -/

inductive ErrorCode where
  | BROWSER_LAUNCH_ERROR
  | BROWSER_CRASHED
  | BROWSER_TIMEOUT
  | PAGE_POOL_EXHAUSTED
  | PAGE_ACQUISITION_TIMEOUT
  | RENDER_ERROR
  | RESOURCE_LOAD_ERROR
  | UNKNOWN_ERROR
deriving Repr, DecidableEq

/-- `SeoKitError` (errors module) restricted to the fields the render path
uses: the message, the typed code, the HTTP status and the structured
context keys set by the three creators below. -/
structure SeoKitError where
  message : String
  code : ErrorCode
  statusCode : Nat
  ctxFailedResources : List String
  ctxConsoleErrors : List String
  ctxTimeoutMs : Nat
deriving Repr, DecidableEq

/-- `createResourceLoadError(failedResources)`. -/
def createResourceLoadError (failedResources : List String) : SeoKitError :=
  { message := "Failed to load resources:\n\n"
      ++ String.intercalate ("\n") (failedResources.map (fun u => "  - " ++ u))
      ++ "\n\nMake sure all images and resources in your template are accessible."
    code := ErrorCode.RESOURCE_LOAD_ERROR
    statusCode := 500
    ctxFailedResources := failedResources
    ctxConsoleErrors := []
    ctxTimeoutMs := 0 }

/-- `createBrowserTimeoutError(timeoutMs)`.  The source divides by 1000
with exact JS arithmetic; the claims never inspect the digits, so Nat
division stands in for it. -/
def createBrowserTimeoutError (timeoutMs : Nat) : SeoKitError :=
  { message := "Browser operation timed out after " ++ toString (timeoutMs / 1000)
      ++ " seconds\n\nThe browser may be unresponsive or the operation is taking too long.\nConsider increasing the timeout in your configuration."
    code := ErrorCode.BROWSER_TIMEOUT
    statusCode := 504
    ctxFailedResources := []
    ctxConsoleErrors := []
    ctxTimeoutMs := timeoutMs }

/-- `createRenderError(message, consoleErrors)`. -/
def createRenderError (message : String) (consoleErrors : List String) : SeoKitError :=
  { message := "Render error: " ++ message
      ++ (if consoleErrors.isEmpty then ""
          else "\n\nConsole errors:\n"
            ++ String.intercalate ("\n") (consoleErrors.map (fun e => "  - " ++ e)))
    code := ErrorCode.RENDER_ERROR
    statusCode := 500
    ctxFailedResources := []
    ctxConsoleErrors := consoleErrors
    ctxTimeoutMs := 0 }

/-- Fate of an `<img>` element that is not yet `complete` when
`waitForPageReady` inspects it. -/
inductive ImgEventOutcome where
  /-- a load event fires and `naturalHeight` is nonzero -/
  | loadOk
  /-- a load event fires but `naturalHeight` is zero (decode failure) -/
  | loadZeroHeight
  /-- an error event fires -/
  | errorEvent
deriving Repr, DecidableEq

/-- An `<img>` element as the in-page script observes it. -/
structure ImgElement where
  complete : Bool
  naturalHeight : Nat
  src : String
  currentSrc : String
  outcome : ImgEventOutcome
deriving Repr, DecidableEq

/-- Whether the in-page script treats this image as a load failure:
already-complete images fail when their natural height is zero; pending
images fail on an error event or a zero-height load event. -/
def imgFails (img : ImgElement) : Bool :=
  if img.complete then img.naturalHeight == 0
  else
    match img.outcome with
    | ImgEventOutcome.loadOk => false
    | ImgEventOutcome.loadZeroHeight => true
    | ImgEventOutcome.errorEvent => true

/-- The message of the rejection thrown inside the page for a failing
image. -/
def imgFailMessage (img : ImgElement) : String :=
  "Image failed to load: " ++ img.src

/-- The image whose rejection `Promise.all` surfaces.  Already-complete
failures reject synchronously during the `map` loop, so the first of those
in document order wins; otherwise the first event-driven failure (event
completion order is taken as document order). -/
def firstFailing (imgs : List ImgElement) : Option ImgElement :=
  match imgs.find? (fun i => i.complete && i.naturalHeight == 0) with
  | some i => some i
  | none => imgs.find? (fun i => imgFails i)

/-- Strip `pat` from the front of the character list, returning the
remainder when it is a prefix. -/
def dropPrefixChars : List Char → List Char → Option (List Char)
  | [], rest => some rest
  | _ :: _, [] => none
  | p :: ps, c :: cs => if c = p then dropPrefixChars ps cs else none

/-- The unanchored regex `pat(.+)` over a character list: at the first
position where `pat` occurs followed by at least one non-newline character,
capture the rest of that line; otherwise keep scanning (an occurrence
followed immediately by a newline or the end fails at that position and
the scan advances, as regex matching does). -/
def regexCapture (pat : List Char) : List Char → Option (List Char)
  | [] => none
  | c :: cs =>
    match dropPrefixChars pat (c :: cs) with
    | some rest =>
      let line := rest.takeWhile (fun ch => ch ≠ '\n')
      if line.isEmpty then regexCapture pat cs else some line
    | none => regexCapture pat cs

/-- The node-side capture over the error message:
`errorMessage.match(/Image failed to load: (.+)/)`, group 1. -/
def extractFailedSrc (msg : String) : Option String :=
  (regexCapture ("Image failed to load: ".toList) msg.toList).map
    (fun cs => String.mk cs)

/-- `waitForPageReady(page)`: resolve when every image loads (the font
subsystem ready promise always resolves); otherwise catch the first image
rejection, extract the failing source from its message and throw a
resource-load error carrying the extracted sources, or the raw message when
extraction found nothing. -/
def waitForPageReady (imgs : List ImgElement) : Except SeoKitError Unit :=
  match firstFailing imgs with
  | none => Except.ok ()
  | some img =>
    let errorMessage := imgFailMessage img
    let failedResources : List String :=
      match extractFailedSrc errorMessage with
      | some u => [u]
      | none => []
    Except.error (createResourceLoadError
      (if failedResources.isEmpty then [errorMessage] else failedResources))

/-- The PNG bytes stand-in returned by `page.screenshot`. -/
def screenshotBuffer : Nat := 1

/-- `renderWithMetrics(html, page, options)`: set content (structural parse
always completes), wait for page ready, take the clipped screenshot.  Only
the page-ready wait can fail. -/
def renderWithMetrics (imgs : List ImgElement) : Except SeoKitError Nat :=
  match waitForPageReady imgs with
  | Except.ok _ => Except.ok screenshotBuffer
  | Except.error e => Except.error e

structure RenderOptions where
  width : Nat
  height : Nat
  quality : Option Nat
  timeout : Option Nat
deriving Repr, DecidableEq

/-- `htmlToPng(html, page, options)`.  `consoleMessages` are the console
events the temporary handler sees while this render runs, as
`(type, text)` pairs; `renderSettleMs` is the instant at which the
`renderWithMetrics` promise settles, raced against the rejection that
`createTimeoutPromise` schedules at `options.timeout ?? 10000` ms.  Any
failure is re-thrown wrapped by `createRenderError` when console errors
were captured. -/
def htmlToPng (html : String) (imgs : List ImgElement)
    (consoleMessages : List (String × String)) (options : RenderOptions)
    (renderSettleMs : Nat) : Except SeoKitError Nat :=
  let timeout := options.timeout.getD 10000
  let consoleErrors := (consoleMessages.filter (fun m => m.1 == "error")).map (fun m => m.2)
  let raced : Except SeoKitError Nat :=
    if renderSettleMs < timeout then renderWithMetrics imgs
    else Except.error (createBrowserTimeoutError timeout)
  match raced with
  | Except.ok buf => Except.ok buf
  | Except.error e =>
    if consoleErrors.isEmpty then Except.error e
    else Except.error (createRenderError e.message consoleErrors)

/-- The typed code of the error a render call failed with, when it
failed. -/
def exceptErrCode (r : Except SeoKitError Nat) : Option ErrorCode :=
  match r with
  | Except.error e => some e.code
  | Except.ok _ => none

/-! ## Concrete example states

Two exhausted size-1 pools that differ only in how many acquires are
queued: page 1 is in use and one, respectively two, waiting requests are
queued.  Used to examine what the acquisition-timeout error carries. -/

def poolOneWaiter : PagePool :=
  { pages := [⟨1, 1, true, 0, 1⟩], availablePages := [],
    waitingRequests := [⟨1, 0, true⟩], config := ⟨1, 10000, 30000⟩,
    browser := some 7, pageIdCounter := 1, isInitialized := true,
    reqIdCounter := 1 }

def poolTwoWaiters : PagePool :=
  { pages := [⟨1, 1, true, 0, 1⟩], availablePages := [],
    waitingRequests := [⟨1, 0, true⟩, ⟨2, 0, true⟩], config := ⟨1, 10000, 30000⟩,
    browser := some 7, pageIdCounter := 1, isInitialized := true,
    reqIdCounter := 2 }

/-- The manager right after the crash observer fired: crashed state, no
attempts used yet, the default attempt cap 3 and base backoff 1000 ms. -/
def m0crashed : BrowserManager :=
  { state := BrowserStatus.crashed ("Browser disconnected") 0
    restartAttempts := 0
    maxRestartAttempts := 3
    restartBackoffMs := 1000 }

/-! ## Helper lemmas -/

theorem updateFirst_decomp {α : Type} (q : α → Bool) (f : α → α) (l₁ l₂ : List α) (y : α)
    (h₁ : ∀ x ∈ l₁, q x = false) (hy : q y = true) :
    updateFirst q f (l₁ ++ y :: l₂) = l₁ ++ f y :: l₂ := by
  induction l₁ with
  | nil => simp [updateFirst, hy]
  | cons a l ih =>
    have ha : q a = false := h₁ a (by simp)
    show (if q a then f a :: (l ++ y :: l₂) else a :: updateFirst q f (l ++ y :: l₂))
        = a :: (l ++ f y :: l₂)
    rw [ha]
    simp only [Bool.false_eq_true, if_false]
    rw [ih (fun x hx => h₁ x (by simp [hx]))]

theorem find?_decomp {α : Type} (q : α → Bool) (l : List α) (y : α)
    (h : l.find? q = some y) :
    ∃ l₁ l₂, l = l₁ ++ y :: l₂ ∧ ∀ x ∈ l₁, q x = false := by
  induction l with
  | nil => simp at h
  | cons a as ih =>
    by_cases hq : q a
    · have hay : a = y := by
        have := List.find?_cons_of_pos (p := q) as hq
        rw [this] at h
        exact Option.some.inj h
      exact ⟨[], as, by simp [hay], by simp⟩
    · rw [List.find?_cons_of_neg as hq] at h
      obtain ⟨l₁, l₂, rfl, hl₁⟩ := ih h
      refine ⟨a :: l₁, l₂, rfl, ?_⟩
      intro x hx
      rcases List.mem_cons.mp hx with rfl | hx
      · exact Bool.not_eq_true _ ▸ by simpa using hq
      · exact hl₁ x hx

theorem freshPages_mem (now : Nat) :
    ∀ (n c : Nat), ∀ p ∈ freshPages now c n,
      p.page = p.id ∧ p.inUse = false ∧ p.requestCount = 0 ∧ c < p.id ∧ p.id ≤ c + n := by
  intro n
  induction n with
  | zero => intro c p hp; simp [freshPages] at hp
  | succ n ih =>
    intro c p hp
    rcases List.mem_cons.mp hp with rfl | hp
    · exact ⟨rfl, rfl, rfl, Nat.lt_succ_self c, by show c + 1 ≤ c + (n + 1); omega⟩
    · obtain ⟨h1, h2, h3, h4, h5⟩ := ih (c + 1) p hp
      exact ⟨h1, h2, h3, by omega, by omega⟩

theorem freshPages_map_id_nodup (now : Nat) :
    ∀ (n c : Nat), ((freshPages now c n).map (fun p => p.id)).Nodup := by
  intro n
  induction n with
  | zero => intro c; simp [freshPages]
  | succ n ih =>
    intro c
    simp only [freshPages, List.map_cons, List.nodup_cons]
    refine ⟨?_, ih (c + 1)⟩
    intro hmem
    obtain ⟨p, hp, hpid⟩ := List.mem_map.mp hmem
    have h1 : p.id = c + 1 := hpid
    have h2 := (freshPages_mem now n (c + 1) p hp).2.2.2.1
    omega

theorem freshPages_length (now : Nat) :
    ∀ (n c : Nat), (freshPages now c n).length = n := by
  intro n
  induction n with
  | zero => intro c; simp [freshPages]
  | succ n ih => intro c; simp [freshPages, ih]

theorem freshPages_filter_inUse (now : Nat) :
    ∀ (n c : Nat), (freshPages now c n).filter (fun p => p.inUse) = [] := by
  intro n
  induction n with
  | zero => intro c; simp [freshPages]
  | succ n ih => intro c; simp [freshPages, List.filter_cons, ih]

/-- States that agree on pages, available queue and counter share the
structural invariant (the waiting queue and the remaining fields do not
occur in it). -/
theorem poolInv_of_fields_eq {s t : PagePool} (h : PoolInv s)
    (hp : t.pages = s.pages) (ha : t.availablePages = s.availablePages)
    (hc : t.pageIdCounter = s.pageIdCounter) : PoolInv t := by
  refine ⟨?_, ?_, ?_, ?_, ?_, ?_⟩
  · rw [hp]; exact h.keysNodup
  · rw [hp]; exact h.pageEqId
  · rw [hp, hc]; exact h.idsBounded
  · rw [hp, ha]; exact h.availMem
  · rw [ha]; exact h.availNodup
  · rw [hp, ha]; exact h.countEq

/-! ## Invariant preservation -/

theorem inv_mkPagePool (cfg : PagePoolConfig) : PoolInv (mkPagePool cfg) := by
  refine ⟨?_, ?_, ?_, ?_, ?_, ?_⟩ <;> simp [mkPagePool]

theorem inv_initPool (s : PagePool) (b now : Nat) (h : PoolInv s) :
    PoolInv (s.initPool b now) := by
  cases hinit : s.isInitialized with
  | true =>
    have he : s.initPool b now = s := by simp [PagePool.initPool, hinit]
    rw [he]
    exact h
  | false =>
    have he : s.initPool b now =
        { s with
          browser := some b
          pages := s.pages ++ freshPages now s.pageIdCounter s.config.size
          availablePages := s.availablePages
            ++ (freshPages now s.pageIdCounter s.config.size).map (fun p => p.id)
          pageIdCounter := s.pageIdCounter + s.config.size
          isInitialized := true } := by
      simp [PagePool.initPool, hinit]
    rw [he]
    refine ⟨?_, ?_, ?_, ?_, ?_, ?_⟩
    · show ((s.pages ++ freshPages now s.pageIdCounter s.config.size).map
        (fun p => p.id)).Nodup
      simp only [List.map_append]
      rw [List.nodup_append]
      refine ⟨h.keysNodup, freshPages_map_id_nodup now s.config.size s.pageIdCounter, ?_⟩
      intro x hx hx'
      obtain ⟨p, hp, hpe⟩ := List.mem_map.mp hx
      obtain ⟨p', hp', hpe'⟩ := List.mem_map.mp hx'
      have h1 : p.id = x := hpe
      have h2 : p'.id = x := hpe'
      have hb := h.idsBounded p hp
      have hb' := (freshPages_mem now s.config.size s.pageIdCounter p' hp').2.2.2.1
      omega
    · intro p hp
      rcases List.mem_append.mp hp with hp | hp
      · exact h.pageEqId p hp
      · exact (freshPages_mem now s.config.size s.pageIdCounter p hp).1
    · intro p hp
      show p.id ≤ s.pageIdCounter + s.config.size
      rcases List.mem_append.mp hp with hp | hp
      · have := h.idsBounded p hp; omega
      · have := (freshPages_mem now s.config.size s.pageIdCounter p hp).2.2.2.2
        omega
    · intro i hi
      rcases List.mem_append.mp hi with hi | hi
      · obtain ⟨p, hp, hpe⟩ := h.availMem i hi
        exact ⟨p, List.mem_append_left _ hp, hpe⟩
      · obtain ⟨p, hp, rfl⟩ := List.mem_map.mp hi
        exact ⟨p, List.mem_append_right _ hp,
          rfl, (freshPages_mem now s.config.size s.pageIdCounter p hp).2.1⟩
    · show (s.availablePages
        ++ (freshPages now s.pageIdCounter s.config.size).map (fun p => p.id)).Nodup
      rw [List.nodup_append]
      refine ⟨h.availNodup, freshPages_map_id_nodup now s.config.size s.pageIdCounter, ?_⟩
      intro x hx hx'
      obtain ⟨p, hp, hpid, _⟩ := h.availMem x hx
      obtain ⟨p', hp', hpe'⟩ := List.mem_map.mp hx'
      have h2 : p'.id = x := hpe'
      have hb := h.idsBounded p hp
      have hb' := (freshPages_mem now s.config.size s.pageIdCounter p' hp').2.2.2.1
      omega
    · show (s.availablePages
          ++ (freshPages now s.pageIdCounter s.config.size).map (fun p => p.id)).length
        + ((s.pages ++ freshPages now s.pageIdCounter s.config.size).filter
            (fun p => p.inUse)).length
        = (s.pages ++ freshPages now s.pageIdCounter s.config.size).length
      simp only [List.filter_append, List.length_append, List.length_map,
        freshPages_filter_inUse, freshPages_length, List.length_nil]
      have := h.countEq
      omega

theorem inv_queueRequest (s : PagePool) (now : Nat) (h : PoolInv s) :
    PoolInv (s.queueRequest now).1 :=
  poolInv_of_fields_eq h rfl rfl rfl

theorem inv_acquire (s : PagePool) (now : Nat) (h : PoolInv s) :
    PoolInv (s.acquire now).1 := by
  cases hcond : (!s.isInitialized || s.browser.isNone) with
  | true =>
    have he : s.acquire now = (s, AcquireResult.notInitialized) := by
      simp [PagePool.acquire, hcond]
    rw [he]
    exact h
  | false =>
  rcases havail : s.availablePages with _ | ⟨a, rest⟩
  · have he : s.acquire now = s.queueRequest now := by
      simp [PagePool.acquire, hcond, havail]
    rw [he]
    exact inv_queueRequest s now h
  · obtain ⟨p0, hp0, hp0id, hp0use⟩ := h.availMem a (by rw [havail]; simp)
    rcases hfind : s.pages.find? (fun p => p.id == a) with _ | y
    · exact absurd (by simp [hp0id]) (List.find?_eq_none.mp hfind p0 hp0)
    · have hy : y.id = a := by simpa using List.find?_some hfind
      have hymem : y ∈ s.pages := List.mem_of_find?_eq_some hfind
      have hyp0 : y = p0 :=
        List.inj_on_of_nodup_map h.keysNodup hymem hp0 (by simp [hy, hp0id])
      have hyuse : y.inUse = false := hyp0 ▸ hp0use
      obtain ⟨L1, L2, hdec, hL1⟩ := find?_decomp _ _ _ hfind
      have hupd : updateFirst (fun p => p.id == a) (markAcquired now) s.pages
          = L1 ++ markAcquired now y :: L2 := by
        rw [hdec]
        exact updateFirst_decomp _ _ _ _ _ hL1 (by simp [hy])
      have hstep : (s.acquire now).1 =
          { s with pages := L1 ++ markAcquired now y :: L2, availablePages := rest } := by
        simp [PagePool.acquire, hcond, havail, hfind, hupd]
      rw [hstep]
      have hrestne : a ∉ rest := by
        have := h.availNodup
        rw [havail] at this
        exact (List.nodup_cons.mp this).1
      have hnodupKeys := h.keysNodup
      rw [hdec] at hnodupKeys
      refine ⟨?_, ?_, ?_, ?_, ?_, ?_⟩
      · simpa [markAcquired] using hnodupKeys
      · intro p hp
        rcases List.mem_append.mp hp with hp | hp
        · exact h.pageEqId p (hdec ▸ List.mem_append_left _ hp)
        · rcases List.mem_cons.mp hp with rfl | hp
          · simpa [markAcquired] using h.pageEqId y hymem
          · exact h.pageEqId p (hdec ▸ by simp [hp])
      · intro p hp
        rcases List.mem_append.mp hp with hp | hp
        · exact h.idsBounded p (hdec ▸ List.mem_append_left _ hp)
        · rcases List.mem_cons.mp hp with rfl | hp
          · simpa [markAcquired] using h.idsBounded y hymem
          · exact h.idsBounded p (hdec ▸ by simp [hp])
      · intro i hi
        obtain ⟨p, hp, hpid, hpuse⟩ := h.availMem i (by rw [havail]; simp [hi])
        have hia : i ≠ a := fun he => hrestne (he ▸ hi)
        have hpy : p ≠ y := fun he => hia (by rw [← hpid, he, hy])
        rw [hdec] at hp
        rcases List.mem_append.mp hp with hp | hp
        · exact ⟨p, List.mem_append_left _ hp, hpid, hpuse⟩
        · rcases List.mem_cons.mp hp with rfl | hp
          · exact absurd rfl hpy
          · exact ⟨p, by simp [hp], hpid, hpuse⟩
      · have := h.availNodup
        rw [havail] at this
        exact (List.nodup_cons.mp this).2
      · have hold := h.countEq
        rw [havail, hdec] at hold
        simp [List.filter_append, List.filter_cons, hyuse] at hold
        simp [List.filter_append, List.filter_cons, markAcquired]
        omega

theorem inv_release (s : PagePool) (page now : Nat) (hleg : releaseLegal s page)
    (h : PoolInv s) : PoolInv (s.release page now).1 := by
  rcases hfind : s.pages.find? (fun p => p.page == page) with _ | y
  · have he : s.release page now = (s, ReleaseEffect.unknownPage) := by
      simp [PagePool.release, hfind]
    rw [he]
    exact h
  · have hy : y.page = page := by simpa using List.find?_some hfind
    have hymem : y ∈ s.pages := List.mem_of_find?_eq_some hfind
    have hyuse : y.inUse = true := by
      rcases hleg with hnone | ⟨w, hw, hwp, hwuse⟩
      · exact absurd hy (hnone y hymem)
      · have hwy : w = y := by
          refine List.inj_on_of_nodup_map h.keysNodup hw hymem ?_
          show w.id = y.id
          rw [← h.pageEqId w hw, ← h.pageEqId y hymem, hwp, hy]
        exact hwy ▸ hwuse
    obtain ⟨L1, L2, hdec, hL1⟩ := find?_decomp _ _ _ hfind
    have hnodupKeys := h.keysNodup
    rw [hdec] at hnodupKeys
    have hyavail : y.id ∉ s.availablePages := by
      intro hmem
      obtain ⟨p, hp, hpid, hpuse⟩ := h.availMem y.id hmem
      have hpy : p = y :=
        List.inj_on_of_nodup_map h.keysNodup hp hymem (by simpa using hpid)
      rw [hpy, hyuse] at hpuse
      exact absurd hpuse (by simp)
    have hmemElse : ∀ p ∈ s.pages, p ≠ y → p ∈ L1 ∨ p ∈ L2 := by
      intro p hp hpy
      rw [hdec] at hp
      rcases List.mem_append.mp hp with hp | hp
      · exact Or.inl hp
      · rcases List.mem_cons.mp hp with rfl | hp
        · exact absurd rfl hpy
        · exact Or.inr hp
    have hpages1 : updateFirst (fun p => p.page == page)
        (fun p => { p with inUse := false, lastUsed := now }) s.pages
        = L1 ++ { y with inUse := false, lastUsed := now } :: L2 := by
      rw [hdec]
      exact updateFirst_decomp _ _ _ _ _ hL1 (by simp [hy])
    rcases hwait : s.waitingRequests with _ | ⟨w, ws⟩
    · have hstep : (s.release page now).1 =
          { s with pages := L1 ++ { y with inUse := false, lastUsed := now } :: L2,
                   availablePages := s.availablePages ++ [y.id] } := by
        simp [PagePool.release, hfind, hwait, hpages1]
      rw [hstep]
      refine ⟨?_, ?_, ?_, ?_, ?_, ?_⟩
      · simpa using hnodupKeys
      · intro p hp
        rcases List.mem_append.mp hp with hp | hp
        · exact h.pageEqId p (hdec ▸ List.mem_append_left _ hp)
        · rcases List.mem_cons.mp hp with rfl | hp
          · simpa using h.pageEqId y hymem
          · exact h.pageEqId p (hdec ▸ by simp [hp])
      · intro p hp
        rcases List.mem_append.mp hp with hp | hp
        · exact h.idsBounded p (hdec ▸ List.mem_append_left _ hp)
        · rcases List.mem_cons.mp hp with rfl | hp
          · simpa using h.idsBounded y hymem
          · exact h.idsBounded p (hdec ▸ by simp [hp])
      · intro i hi
        rcases List.mem_append.mp hi with hi | hi
        · obtain ⟨p, hp, hpid, hpuse⟩ := h.availMem i hi
          have hpy : p ≠ y := by
            intro he
            rw [he, hyuse] at hpuse
            exact absurd hpuse (by simp)
          rcases hmemElse p hp hpy with hp' | hp'
          · exact ⟨p, List.mem_append_left _ hp', hpid, hpuse⟩
          · exact ⟨p, by simp [hp'], hpid, hpuse⟩
        · have hiy : i = y.id := by simpa using hi
          subst hiy
          exact ⟨{ y with inUse := false, lastUsed := now }, by simp, rfl, rfl⟩
      · show (s.availablePages ++ [y.id]).Nodup
        rw [List.nodup_append]
        refine ⟨h.availNodup, by simp, ?_⟩
        intro x hx hx'
        have : x = y.id := by simpa using hx'
        exact hyavail (this ▸ hx)
      · have hold := h.countEq
        rw [hdec] at hold
        simp [List.filter_append, List.filter_cons, hyuse] at hold
        simp [List.filter_append, List.filter_cons]
        omega
    · have hupd2 : updateFirst (fun p => p.page == page)
          (fun p => { p with inUse := true, requestCount := p.requestCount + 1 })
          (L1 ++ { y with inUse := false, lastUsed := now } :: L2)
          = L1 ++ { y with inUse := true, lastUsed := now, requestCount := y.requestCount + 1 } :: L2 := by
        rw [updateFirst_decomp (fun p => p.page == page) _ L1 L2
          { y with inUse := false, lastUsed := now } hL1 (by simp [hy])]
      have hstep : (s.release page now).1 =
          { s with
            pages := L1 ++ { y with inUse := true, lastUsed := now, requestCount := y.requestCount + 1 } :: L2,
            waitingRequests := ws } := by
        simp [PagePool.release, hfind, hwait, hpages1, hupd2]
      rw [hstep]
      refine ⟨?_, ?_, ?_, ?_, ?_, ?_⟩
      · simpa using hnodupKeys
      · intro p hp
        rcases List.mem_append.mp hp with hp | hp
        · exact h.pageEqId p (hdec ▸ List.mem_append_left _ hp)
        · rcases List.mem_cons.mp hp with rfl | hp
          · simpa using h.pageEqId y hymem
          · exact h.pageEqId p (hdec ▸ by simp [hp])
      · intro p hp
        rcases List.mem_append.mp hp with hp | hp
        · exact h.idsBounded p (hdec ▸ List.mem_append_left _ hp)
        · rcases List.mem_cons.mp hp with rfl | hp
          · simpa using h.idsBounded y hymem
          · exact h.idsBounded p (hdec ▸ by simp [hp])
      · intro i hi
        obtain ⟨p, hp, hpid, hpuse⟩ := h.availMem i hi
        have hpy : p ≠ y := by
          intro he
          rw [he, hyuse] at hpuse
          exact absurd hpuse (by simp)
        rcases hmemElse p hp hpy with hp' | hp'
        · exact ⟨p, List.mem_append_left _ hp', hpid, hpuse⟩
        · exact ⟨p, by simp [hp'], hpid, hpuse⟩
      · exact h.availNodup
      · have hold := h.countEq
        rw [hdec] at hold
        simp [List.filter_append, List.filter_cons, hyuse] at hold
        simp [List.filter_append, List.filter_cons]
        omega

theorem inv_fireTimeout (s : PagePool) (rid : Nat) (h : PoolInv s) :
    PoolInv (s.fireTimeout rid).1 :=
  poolInv_of_fields_eq h rfl rfl rfl

theorem inv_drain (s : PagePool) (h : PoolInv s) : PoolInv s.drain.1 := by
  refine ⟨?_, ?_, ?_, ?_, ?_, ?_⟩ <;> simp [PagePool.drain]

theorem inv_step (s : PagePool) (op : PoolOp) (hleg : opLegal s op) (h : PoolInv s) :
    PoolInv (s.step op) := by
  cases op with
  | opInit b now => exact inv_initPool s b now h
  | opAcquire now => exact inv_acquire s now h
  | opRelease p now => exact inv_release s p now hleg h
  | opFireTimeout rid => exact inv_fireTimeout s rid h
  | opDrain => exact inv_drain s h

theorem inv_run (s : PagePool) (ops : List PoolOp) (hleg : Legal s ops)
    (h : PoolInv s) : PoolInv (s.run ops) := by
  induction hleg with
  | nil s => exact h
  | cons hop _ ih => exact ih (inv_step _ _ hop h)

/-! ## Claim C1 -/

/-- Claim C1 counterexample: the invariant `available + inUse = total` is
violated by a reachable operation sequence.  A release of a pool-owned page
that is not in use (here: releasing page 1 of a freshly initialized size-1
pool, which was never acquired) enqueues its id onto the available queue a
second time, so the stats read available 2, inUse 0, total 1. -/
theorem c1_counterexample :
    ¬ ((((mkPagePool ⟨1, 10000, 30000⟩).run
            [PoolOp.opInit 7 0, PoolOp.opRelease 1 1]).getStats.available
          + ((mkPagePool ⟨1, 10000, 30000⟩).run
            [PoolOp.opInit 7 0, PoolOp.opRelease 1 1]).getStats.inUse)
        = ((mkPagePool ⟨1, 10000, 30000⟩).run
            [PoolOp.opInit 7 0, PoolOp.opRelease 1 1]).getStats.total) := by
  decide

/-- Claim C1 (amended): over every operation sequence in which each release
is of a tab currently marked in use or of a handle unknown to the pool,
`getStats` satisfies `available + inUse = total` in every reachable
state. -/
theorem c1_stats_invariant (cfg : PagePoolConfig) (ops : List PoolOp)
    (hleg : Legal (mkPagePool cfg) ops) :
    ((mkPagePool cfg).run ops).getStats.available
        + ((mkPagePool cfg).run ops).getStats.inUse
      = ((mkPagePool cfg).run ops).getStats.total := by
  have hinv := inv_run (mkPagePool cfg) ops hleg (inv_mkPagePool cfg)
  simpa [PagePool.getStats] using hinv.countEq

theorem c1_stats_invariant_witness :
    ((mkPagePool ⟨1, 10000, 30000⟩).run
        [PoolOp.opInit 7 0, PoolOp.opAcquire 1, PoolOp.opRelease 1 2]).getStats.available
      + ((mkPagePool ⟨1, 10000, 30000⟩).run
        [PoolOp.opInit 7 0, PoolOp.opAcquire 1, PoolOp.opRelease 1 2]).getStats.inUse
      = ((mkPagePool ⟨1, 10000, 30000⟩).run
        [PoolOp.opInit 7 0, PoolOp.opAcquire 1, PoolOp.opRelease 1 2]).getStats.total :=
  c1_stats_invariant ⟨1, 10000, 30000⟩
    [PoolOp.opInit 7 0, PoolOp.opAcquire 1, PoolOp.opRelease 1 2]
    (Legal.cons (by decide) (Legal.cons (by decide)
      (Legal.cons (by decide) (Legal.nil _))))

/-! ## Claim C2 -/

/-- Acquiring `m` times from an initialized pool whose available queue
holds exactly the ids of its `m` fresh pages (counters `c+1 .. c+m`), after
an arbitrary prefix `done` of already-acquired records with smaller ids:
every call pops the next fresh page in order, marks it acquired, and
returns its handle `c+1, c+2, ...`. -/
theorem acquireTimes_fresh (now0 now : Nat) :
    ∀ (m : Nat) (done : List PageInfo) (c : Nat) (cfg : PagePoolConfig)
      (b : Nat) (wq : List PoolRequest) (pc rc : Nat),
      (∀ p ∈ done, p.id ≤ c) →
      acquireTimes
        { pages := done ++ freshPages now0 c m
          availablePages := (freshPages now0 c m).map (fun p => p.id)
          waitingRequests := wq, config := cfg, browser := some b
          pageIdCounter := pc, isInitialized := true, reqIdCounter := rc } now m
      = ({ pages := done ++ (freshPages now0 c m).map (markAcquired now)
           availablePages := [], waitingRequests := wq, config := cfg
           browser := some b, pageIdCounter := pc, isInitialized := true
           reqIdCounter := rc },
         (List.range' (c + 1) m).map AcquireResult.immediate) := by
  intro m
  induction m with
  | zero =>
    intro done c cfg b wq pc rc hdone
    simp [acquireTimes, freshPages]
  | succ m ih =>
    intro done c cfg b wq pc rc hdone
    have hfp : freshPages now0 c (m + 1)
        = ⟨c + 1, c + 1, false, now0, 0⟩ :: freshPages now0 (c + 1) m := rfl
    have hL1 : ∀ x ∈ done, (x.id == c + 1) = false := by
      intro x hx
      have := hdone x hx
      simp only [beq_eq_false_iff_ne]
      omega
    have hnone : done.find? (fun p => p.id == c + 1) = none :=
      List.find?_eq_none.mpr (fun x hx => by simp [hL1 x hx])
    have hupd : updateFirst (fun p => p.id == c + 1) (markAcquired now)
        (done ++ ⟨c + 1, c + 1, false, now0, 0⟩ :: freshPages now0 (c + 1) m)
        = done ++ markAcquired now ⟨c + 1, c + 1, false, now0, 0⟩
            :: freshPages now0 (c + 1) m :=
      updateFirst_decomp _ _ _ _ _ hL1 (by simp)
    have hacq : PagePool.acquire
        { pages := done ++ freshPages now0 c (m + 1)
          availablePages := (freshPages now0 c (m + 1)).map (fun p => p.id)
          waitingRequests := wq, config := cfg, browser := some b
          pageIdCounter := pc, isInitialized := true, reqIdCounter := rc } now
        = ({ pages := done ++ markAcquired now ⟨c + 1, c + 1, false, now0, 0⟩
               :: freshPages now0 (c + 1) m
             availablePages := (freshPages now0 (c + 1) m).map (fun p => p.id)
             waitingRequests := wq, config := cfg, browser := some b
             pageIdCounter := pc, isInitialized := true, reqIdCounter := rc },
           AcquireResult.immediate (c + 1)) := by
      simp [PagePool.acquire, hfp, hnone, hupd]
    have hdone' : ∀ p ∈ done ++ [markAcquired now ⟨c + 1, c + 1, false, now0, 0⟩],
        p.id ≤ c + 1 := by
      intro p hp
      rcases List.mem_append.mp hp with hp | hp
      · have := hdone p hp
        omega
      · have hpe : p = markAcquired now ⟨c + 1, c + 1, false, now0, 0⟩ := by
          simpa using hp
        subst hpe
        show c + 1 ≤ c + 1
        omega
    have hassoc : (done ++ [markAcquired now ⟨c + 1, c + 1, false, now0, 0⟩])
        ++ freshPages now0 (c + 1) m
        = done ++ markAcquired now ⟨c + 1, c + 1, false, now0, 0⟩
            :: freshPages now0 (c + 1) m := by
      simp
    have hih := ih (done ++ [markAcquired now ⟨c + 1, c + 1, false, now0, 0⟩])
      (c + 1) cfg b wq pc rc hdone'
    rw [hassoc] at hih
    simp only [acquireTimes]
    rw [hacq]
    dsimp only
    rw [hih]
    rw [hfp, List.range'_succ]
    simp [List.map_cons]

/-- Claim C2: after initializing a pool of size `N`, the first `N` acquire
calls all resolve immediately, handing out the pairwise-distinct page
handles `1 .. N` in order; every record is then marked in use with its
request count incremented from 0 to 1; an `(N+1)`st acquire does not
resolve immediately but is enqueued as a waiting request with an armed
timer. -/
theorem c2_first_acquires (N tmo mw b now0 now1 : Nat) :
    acquireTimes ((mkPagePool ⟨N, tmo, mw⟩).initPool b now0) now1 N
      = ({ pages := (freshPages now0 0 N).map (markAcquired now1)
           availablePages := [], waitingRequests := [], config := ⟨N, tmo, mw⟩
           browser := some b, pageIdCounter := N, isInitialized := true
           reqIdCounter := 0 },
         (List.range' 1 N).map AcquireResult.immediate)
    ∧ (List.range' 1 N).Nodup
    ∧ (∀ p ∈ (freshPages now0 0 N).map (markAcquired now1),
        p.inUse = true ∧ p.requestCount = 1)
    ∧ (acquireTimes ((mkPagePool ⟨N, tmo, mw⟩).initPool b now0) now1 N).1.acquire now1
      = ({ pages := (freshPages now0 0 N).map (markAcquired now1)
           availablePages := [], waitingRequests := [⟨1, now1, true⟩]
           config := ⟨N, tmo, mw⟩, browser := some b, pageIdCounter := N
           isInitialized := true, reqIdCounter := 1 },
         AcquireResult.queued 1) := by
  have hinit : (mkPagePool ⟨N, tmo, mw⟩).initPool b now0
      = { pages := freshPages now0 0 N
          availablePages := (freshPages now0 0 N).map (fun p => p.id)
          waitingRequests := [], config := ⟨N, tmo, mw⟩, browser := some b
          pageIdCounter := N, isInitialized := true, reqIdCounter := 0 } := by
    simp [mkPagePool, PagePool.initPool]
  have hall := acquireTimes_fresh now0 now1 N [] 0 ⟨N, tmo, mw⟩ b [] N 0
    (by intro p hp; simp at hp)
  simp only [List.nil_append, Nat.zero_add] at hall
  have hmain : acquireTimes ((mkPagePool ⟨N, tmo, mw⟩).initPool b now0) now1 N
      = ({ pages := (freshPages now0 0 N).map (markAcquired now1)
           availablePages := [], waitingRequests := [], config := ⟨N, tmo, mw⟩
           browser := some b, pageIdCounter := N, isInitialized := true
           reqIdCounter := 0 },
         (List.range' 1 N).map AcquireResult.immediate) := by
    rw [hinit]
    exact hall
  refine ⟨hmain, List.nodup_range' 1 N, ?_, ?_⟩
  · intro p hp
    obtain ⟨q, hq, rfl⟩ := List.mem_map.mp hp
    have hrc := (freshPages_mem now0 N 0 q hq).2.2.1
    refine ⟨rfl, ?_⟩
    show q.requestCount + 1 = 1
    omega
  · rw [hmain]
    simp [PagePool.acquire, PagePool.queueRequest]

theorem c2_first_acquires_witness :
    (acquireTimes ((mkPagePool ⟨2, 10000, 30000⟩).initPool 7 0) 5 2).2
      = (List.range' 1 2).map AcquireResult.immediate :=
  congrArg Prod.snd (c2_first_acquires 2 10000 30000 7 0 5).1

/-! ## Claim C3 -/

/-- Claim C3: releasing a pool-owned page while the waiting queue is
nonempty hands the page directly to the head of the queue — the oldest,
first-enqueued request, so service is strictly FIFO — returning it with its
timeout timer cleared; the owning record stays in use with its request
count incremented, and the available queue is left untouched (the page is
never pushed onto it in this step). -/
theorem c3_release_handoff (s : PagePool) (page now : Nat)
    (w : PoolRequest) (ws : List PoolRequest) (L1 L2 : List PageInfo) (y : PageInfo)
    (hwait : s.waitingRequests = w :: ws)
    (hdec : s.pages = L1 ++ y :: L2)
    (hL1 : ∀ x ∈ L1, (x.page == page) = false)
    (hy : y.page = page) :
    s.release page now =
      ({ s with
          pages := L1 ++ { y with inUse := true, lastUsed := now, requestCount := y.requestCount + 1 } :: L2,
          waitingRequests := ws },
       ReleaseEffect.handedToWaiter { w with timerActive := false } page) := by
  have hfind : s.pages.find? (fun p => p.page == page) = some y := by
    rw [hdec, List.find?_append]
    have h1 : L1.find? (fun p => p.page == page) = none :=
      List.find?_eq_none.mpr (fun x hx => by simp [hL1 x hx])
    rw [h1]
    simp [hy]
  have hpages1 : updateFirst (fun p => p.page == page)
      (fun p => { p with inUse := false, lastUsed := now }) s.pages
      = L1 ++ { y with inUse := false, lastUsed := now } :: L2 := by
    rw [hdec]
    exact updateFirst_decomp _ _ _ _ _ hL1 (by simp [hy])
  have hupd2 : updateFirst (fun p => p.page == page)
      (fun p => { p with inUse := true, requestCount := p.requestCount + 1 })
      (L1 ++ { y with inUse := false, lastUsed := now } :: L2)
      = L1 ++ { y with inUse := true, lastUsed := now, requestCount := y.requestCount + 1 } :: L2 := by
    rw [updateFirst_decomp (fun p => p.page == page) _ L1 L2
      { y with inUse := false, lastUsed := now } hL1 (by simp [hy])]
  simp [PagePool.release, hfind, hwait, hpages1, hupd2]

theorem c3_release_handoff_witness :
    PagePool.release
      { pages := [⟨1, 1, true, 0, 1⟩], availablePages := [],
        waitingRequests := [⟨5, 2, true⟩], config := ⟨1, 10000, 30000⟩,
        browser := some 7, pageIdCounter := 1, isInitialized := true,
        reqIdCounter := 5 } 1 9
    = ({ pages := [⟨1, 1, true, 9, 2⟩], availablePages := [],
         waitingRequests := [], config := ⟨1, 10000, 30000⟩,
         browser := some 7, pageIdCounter := 1, isInitialized := true,
         reqIdCounter := 5 },
       ReleaseEffect.handedToWaiter ⟨5, 2, false⟩ 1) :=
  c3_release_handoff
    { pages := [⟨1, 1, true, 0, 1⟩], availablePages := [],
      waitingRequests := [⟨5, 2, true⟩], config := ⟨1, 10000, 30000⟩,
      browser := some 7, pageIdCounter := 1, isInitialized := true,
      reqIdCounter := 5 } 1 9 ⟨5, 2, true⟩ [] [] [] ⟨1, 1, true, 0, 1⟩
    rfl rfl (by decide) rfl

/-! ## Claim C4 -/

/-- Claim C4 counterexample: two pools identical except for the number of
queued waiting requests (one versus two) produce literally the same timeout
error, so the error cannot carry the current waiting count as the claim
states; the waiting count reaches only the logger. -/
theorem c4_counterexample :
    (poolOneWaiter.fireTimeout 1).2 = (poolTwoWaiters.fireTimeout 1).2
      ∧ poolOneWaiter.getStats.waitingRequests
        ≠ poolTwoWaiters.getStats.waitingRequests :=
  ⟨rfl, by decide⟩

/-- Claim C4 (amended): when the timeout timer of a queued request fires,
the request is removed from the queue — it is absent from the waiting
count immediately after, the other requests kept in order — and the call
rejects with a PageAcquisitionTimeoutError whose message carries the
configured maxWaitTime and the pool total page count; the current waiting
count is logged but not carried on the error. -/
theorem c4_timeout_removal (s : PagePool) (rid : Nat) :
    (s.fireTimeout rid).1.waitingRequests
        = s.waitingRequests.filter (fun r => r.reqId != rid)
      ∧ (∀ r ∈ (s.fireTimeout rid).1.waitingRequests, r.reqId ≠ rid)
      ∧ (s.fireTimeout rid).2
        = { name := "PageAcquisitionTimeoutError"
            message := "Page acquisition timeout after " ++ toString s.config.maxWaitTime
              ++ "ms. Pool exhausted with " ++ toString s.pages.length
              ++ " pages in use." } := by
  refine ⟨rfl, ?_, rfl⟩
  intro r hr
  have hmem := List.of_mem_filter hr
  simpa using hmem

theorem c4_timeout_removal_witness :
    (poolTwoWaiters.fireTimeout 1).1.waitingRequests
      = poolTwoWaiters.waitingRequests.filter (fun r => r.reqId != 1) :=
  (c4_timeout_removal poolTwoWaiters 1).1

/-! ## Claim C5 -/

/-- Claim C5: drain rejects every queued waiting request, in order, with the
pool-draining error after clearing its timer, closes every page
(best-effort: close results are never consulted), clears every internal
collection, marks the pool uninitialized; afterwards acquire fails with the
not-initialized error, and once initialize runs again it no longer does. -/
theorem c5_drain_spec (s : PagePool) (now b now2 now3 : Nat) :
    s.drain.2.rejected
        = s.waitingRequests.map (fun r => ({ r with timerActive := false }, drainError))
      ∧ s.drain.2.closedPages = s.pages.map (fun p => p.page)
      ∧ s.drain.1.pages = [] ∧ s.drain.1.availablePages = []
      ∧ s.drain.1.waitingRequests = [] ∧ s.drain.1.isInitialized = false
      ∧ (s.drain.1.acquire now).2 = AcquireResult.notInitialized
      ∧ (s.drain.1.initPool b now2).isInitialized = true
      ∧ ((s.drain.1.initPool b now2).acquire now3).2 ≠ AcquireResult.notInitialized := by
  refine ⟨rfl, rfl, rfl, rfl, rfl, rfl, ?_, ?_, ?_⟩
  · simp [PagePool.acquire, PagePool.drain]
  · simp [PagePool.initPool, PagePool.drain]
  · have hinit : (s.drain.1.initPool b now2).isInitialized = true := by
      simp [PagePool.initPool, PagePool.drain]
    have hbr : (s.drain.1.initPool b now2).browser = some b := by
      simp [PagePool.initPool, PagePool.drain]
    cases havail : (s.drain.1.initPool b now2).availablePages with
    | nil =>
      have he : (s.drain.1.initPool b now2).acquire now3
          = (s.drain.1.initPool b now2).queueRequest now3 := by
        simp [PagePool.acquire, hinit, hbr, havail]
      rw [he]
      simp [PagePool.queueRequest]
    | cons a rest =>
      cases hfind : (s.drain.1.initPool b now2).pages.find? (fun p => p.id == a) with
      | some y =>
        have he : ((s.drain.1.initPool b now2).acquire now3).2
            = AcquireResult.immediate y.page := by
          simp [PagePool.acquire, hinit, hbr, havail, hfind]
        rw [he]
        simp
      | none =>
        have he : (s.drain.1.initPool b now2).acquire now3
            = ({ (s.drain.1.initPool b now2) with availablePages := rest
               }).queueRequest now3 := by
          simp [PagePool.acquire, hinit, hbr, havail, hfind]
        rw [he]
        simp [PagePool.queueRequest]

theorem c5_drain_spec_witness :
    ((PagePool.drain ((mkPagePool ⟨1, 10000, 30000⟩).initPool 7 0)).1.acquire 9).2
      = AcquireResult.notInitialized :=
  (c5_drain_spec ((mkPagePool ⟨1, 10000, 30000⟩).initPool 7 0) 9 8 1 2).2.2.2.2.2.2.1

/-! ## Claim C9 -/

/-- Claim C9: releasing a handle owned by no record of the pool is a warned
no-op: the whole state — hence every collection and getStats — is
unchanged, and no error is raised (the call returns normally). -/
theorem c9_release_unknown_noop (s : PagePool) (p now : Nat)
    (h : ∀ info ∈ s.pages, info.page ≠ p) :
    s.release p now = (s, ReleaseEffect.unknownPage)
      ∧ (s.release p now).1.getStats = s.getStats := by
  have hfind : s.pages.find? (fun q => q.page == p) = none :=
    List.find?_eq_none.mpr (fun x hx => by simpa using h x hx)
  have he : s.release p now = (s, ReleaseEffect.unknownPage) := by
    simp [PagePool.release, hfind]
  exact ⟨he, by rw [he]⟩

theorem c9_release_unknown_noop_witness :
    PagePool.release ((mkPagePool ⟨1, 10000, 30000⟩).initPool 7 0) 99 5
      = ((mkPagePool ⟨1, 10000, 30000⟩).initPool 7 0, ReleaseEffect.unknownPage) :=
  (c9_release_unknown_noop ((mkPagePool ⟨1, 10000, 30000⟩).initPool 7 0) 99 5
    (by decide)).1

/-! ## Claim C10 -/

/-- Claim C10: getBrowser returns the handle exactly when the state is
running and returns null in the stopped, starting, crashed and restarting
states; isRunning is true exactly when getBrowser is non-null. -/
theorem c10_getBrowser_running :
    ∀ (st : BrowserStatus) (a mx bo : Nat),
      (BrowserManager.mk st a mx bo).isRunning
          = (BrowserManager.mk st a mx bo).getBrowser.isSome
        ∧ (∀ b t, (BrowserManager.mk (BrowserStatus.running b t) a mx bo).getBrowser = some b)
        ∧ (BrowserManager.mk BrowserStatus.stopped a mx bo).getBrowser = none
        ∧ (BrowserManager.mk BrowserStatus.starting a mx bo).getBrowser = none
        ∧ (∀ e t, (BrowserManager.mk (BrowserStatus.crashed e t) a mx bo).getBrowser = none)
        ∧ (BrowserManager.mk BrowserStatus.restarting a mx bo).getBrowser = none := by
  intro st a mx bo
  refine ⟨?_, fun b t => rfl, rfl, rfl, fun e t => rfl, rfl⟩
  cases st <;> rfl

theorem c10_getBrowser_running_witness :
    (BrowserManager.mk (BrowserStatus.running 7 3) 0 3 1000).getBrowser = some 7 :=
  ((c10_getBrowser_running (BrowserStatus.running 7 3) 0 3 1000).2.1) 7 3

/-! ## Claim C6 -/

/-- Claim C6: for crash auto-restart with base backoff 1000 ms and attempt
cap 3, starting from a fresh crash: every recorded round increments the
attempt counter before trying and waits `1000 * 2 ^ (attempt - 1)` ms in
the restarting state; when every launch fails, the rounds are exactly
attempts 1, 2, 3 with delays 1000, 2000, 4000 ms, after which no further
round occurs and the state remains crashed with the counter at 3; a
successful restart (here on the third try) resets the counter to zero. -/
theorem c6_auto_restart :
    (∀ now, m0crashed.attemptAutoRestart (fun _ => none) now
      = ({ m0crashed with
            state := (BrowserStatus.crashed ("launch failed") now),
            restartAttempts := 3 },
         [⟨1, 1000, BrowserStatus.restarting, false⟩,
          ⟨2, 2000, BrowserStatus.restarting, false⟩,
          ⟨3, 4000, BrowserStatus.restarting, false⟩]))
    ∧ (∀ (launches : Nat → Option Nat) (now : Nat),
        ((m0crashed.attemptAutoRestart launches now).2).all
          (fun e => e.backoffMs == 1000 * 2 ^ (e.attempt - 1)
            && e.duringWait == BrowserStatus.restarting) = true)
    ∧ (∀ bh now, m0crashed.attemptAutoRestart
          (fun k => if k == 3 then some bh else none) now
      = ({ m0crashed with
            state := (BrowserStatus.running bh now),
            restartAttempts := 0 },
         [⟨1, 1000, BrowserStatus.restarting, false⟩,
          ⟨2, 2000, BrowserStatus.restarting, false⟩,
          ⟨3, 4000, BrowserStatus.restarting, true⟩])) := by
  refine ⟨fun now => rfl, ?_, fun bh now => rfl⟩
  intro launches now
  rcases h1 : launches 1 with _ | b1 <;>
    rcases h2 : launches 2 with _ | b2 <;>
      rcases h3 : launches 3 with _ | b3 <;>
        simp [BrowserManager.attemptAutoRestart, autoRestartGo, BrowserManager.start,
          BrowserManager.isRunning, m0crashed, h1, h2, h3]

theorem c6_auto_restart_witness :
    ((BrowserManager.attemptAutoRestart m0crashed (fun _ => none) 5).2).all
      (fun e => e.backoffMs == 1000 * 2 ^ (e.attempt - 1)
        && e.duringWait == BrowserStatus.restarting) = true :=
  c6_auto_restart.2.1 (fun _ => none) 5

/-! ## Claim C7 -/

/-- Claim C7 counterexample: a render whose single image fails to load but
during which one console error was captured does not fail with
RESOURCE_LOAD_ERROR — htmlToPng re-wraps the failure as a RENDER_ERROR
carrying the console errors. -/
theorem c7_counterexample :
    exceptErrCode (htmlToPng ("h")
        [⟨true, 0, "http://x/a.png", "", ImgEventOutcome.loadOk⟩]
        [("error", "Failed to load resource")] ⟨1200, 630, none, none⟩ 5)
      = some ErrorCode.RENDER_ERROR
    ∧ some ErrorCode.RENDER_ERROR ≠ some ErrorCode.RESOURCE_LOAD_ERROR := by
  exact ⟨rfl, by decide⟩

/-- Claim C7 (amended): when at least one image fails to load, the
page-ready wait aborts with a resource-load error whose resources are the
failing image source captured from the rejection message when the capture
succeeds, else the raw message text; provided the render settles before the
hard timeout and no console errors were captured, the htmlToPng call fails
with exactly that RESOURCE_LOAD_ERROR.  (With console errors captured the
failure is re-wrapped as a RENDER_ERROR; see the counterexample.) -/
theorem c7_resource_load (html : String) (imgs : List ImgElement)
    (msgs : List (String × String)) (options : RenderOptions) (renderSettleMs : Nat)
    (htime : renderSettleMs < options.timeout.getD 10000)
    (hfail : ∃ i ∈ imgs, imgFails i = true)
    (hcons : msgs.filter (fun m => m.1 == "error") = []) :
    ∃ img, firstFailing imgs = some img
      ∧ imgFails img = true
      ∧ htmlToPng html imgs msgs options renderSettleMs
        = Except.error (createResourceLoadError
            (match extractFailedSrc (imgFailMessage img) with
             | some u => [u]
             | none => [imgFailMessage img])) := by
  have hff : ∃ img, firstFailing imgs = some img ∧ imgFails img = true := by
    rcases hsync : imgs.find? (fun i => i.complete && i.naturalHeight == 0) with _ | i0
    · obtain ⟨i, hi, hif⟩ := hfail
      rcases hf2 : imgs.find? (fun i => imgFails i) with _ | i1
      · exact absurd hif (List.find?_eq_none.mp hf2 i hi)
      · exact ⟨i1, by simp [firstFailing, hsync, hf2], List.find?_some hf2⟩
    · have hprop := List.find?_some hsync
      simp only [Bool.and_eq_true] at hprop
      refine ⟨i0, by simp [firstFailing, hsync], ?_⟩
      simp [imgFails, hprop.1, hprop.2]
  obtain ⟨img, hffeq, hfails⟩ := hff
  have hwait : waitForPageReady imgs
      = Except.error (createResourceLoadError
          (match extractFailedSrc (imgFailMessage img) with
           | some u => [u]
           | none => [imgFailMessage img])) := by
    rcases hex : extractFailedSrc (imgFailMessage img) with _ | u
    · simp [waitForPageReady, hffeq, hex]
    · simp [waitForPageReady, hffeq, hex]
  have hren : renderWithMetrics imgs
      = Except.error (createResourceLoadError
          (match extractFailedSrc (imgFailMessage img) with
           | some u => [u]
           | none => [imgFailMessage img])) := by
    simp [renderWithMetrics, hwait]
  refine ⟨img, hffeq, hfails, ?_⟩
  simp [htmlToPng, htime, hcons, hren]

theorem c7_resource_load_witness :
    htmlToPng ("h") [⟨true, 0, "http://x/a.png", "", ImgEventOutcome.loadOk⟩] []
        ⟨1200, 630, none, none⟩ 5
      = Except.error (createResourceLoadError ["http://x/a.png"]) := by
  obtain ⟨img, hff, _, heq⟩ := c7_resource_load ("h")
    [⟨true, 0, "http://x/a.png", "", ImgEventOutcome.loadOk⟩] []
    ⟨1200, 630, none, none⟩ 5 (by decide)
    ⟨⟨true, 0, "http://x/a.png", "", ImgEventOutcome.loadOk⟩, by simp, by decide⟩ rfl
  have himg : img = ⟨true, 0, "http://x/a.png", "", ImgEventOutcome.loadOk⟩ := by
    have hc : firstFailing [⟨true, 0, "http://x/a.png", "", ImgEventOutcome.loadOk⟩]
        = some ⟨true, 0, "http://x/a.png", "", ImgEventOutcome.loadOk⟩ := by decide
    rw [hc] at hff
    exact (Option.some.inj hff).symm
  subst himg
  rw [heq]
  have hx : extractFailedSrc
      (imgFailMessage ⟨true, 0, "http://x/a.png", "", ImgEventOutcome.loadOk⟩)
      = some ("http://x/a.png") := by decide
  rw [hx]

/-! ## Claim C8 -/

/-- Claim C8 counterexample: a render that exceeds its timeout budget but
during which a console error was captured does not fail with the
browser-timeout error — htmlToPng re-wraps the failure as a RENDER_ERROR
carrying the console errors. -/
theorem c8_counterexample :
    exceptErrCode (htmlToPng ("h") [] [("error", "boom")] ⟨1200, 630, none, some 10⟩ 25)
      = some ErrorCode.RENDER_ERROR
    ∧ some ErrorCode.RENDER_ERROR ≠ some ErrorCode.BROWSER_TIMEOUT := by
  exact ⟨rfl, by decide⟩

/-- Claim C8 (amended): the whole render is raced against one hard timeout;
when the render settles only after the timeout budget has elapsed, the call
fails — with the BROWSER_TIMEOUT error when no console errors were
captured, and otherwise with a RENDER_ERROR wrapping the timeout message —
and in either case the error code differs from RESOURCE_LOAD_ERROR. -/
theorem c8_hard_timeout (html : String) (imgs : List ImgElement)
    (msgs : List (String × String)) (options : RenderOptions) (renderSettleMs : Nat)
    (htime : options.timeout.getD 10000 < renderSettleMs) :
    ∃ e, htmlToPng html imgs msgs options renderSettleMs = Except.error e
      ∧ e.code = (if ((msgs.filter (fun m => m.1 == "error")).map (fun m => m.2)).isEmpty
          then ErrorCode.BROWSER_TIMEOUT else ErrorCode.RENDER_ERROR)
      ∧ e.code ≠ ErrorCode.RESOURCE_LOAD_ERROR := by
  have hnotlt : ¬ (renderSettleMs < options.timeout.getD 10000) := by omega
  cases hcons : ((msgs.filter (fun m => m.1 == "error")).map (fun m => m.2)).isEmpty with
  | true =>
    refine ⟨createBrowserTimeoutError (options.timeout.getD 10000), ?_, ?_, ?_⟩
    · simp [htmlToPng, hnotlt, hcons]
    · simp [hcons, createBrowserTimeoutError]
    · simp [createBrowserTimeoutError]
  | false =>
    refine ⟨createRenderError
        (createBrowserTimeoutError (options.timeout.getD 10000)).message
        ((msgs.filter (fun m => m.1 == "error")).map (fun m => m.2)), ?_, ?_, ?_⟩
    · simp [htmlToPng, hnotlt, hcons]
    · simp [hcons, createRenderError]
    · simp [createRenderError]

theorem c8_hard_timeout_witness :
    ∃ e, htmlToPng ("h") [] [] ⟨1200, 630, none, some 10⟩ 25 = Except.error e
      ∧ e.code = (if (([] : List (String × String)).filter
            (fun m => m.1 == "error")).map (fun m => m.2) |>.isEmpty
          then ErrorCode.BROWSER_TIMEOUT else ErrorCode.RENDER_ERROR)
      ∧ e.code ≠ ErrorCode.RESOURCE_LOAD_ERROR :=
  c8_hard_timeout ("h") [] [] ⟨1200, 630, none, some 10⟩ 25 (by decide)

end Seokit
